import Mathlib

/-!
# Shallow embedding of the sandbox workspace core

This file embeds, in Lean 4, the path normalization / safety layer and the
local sandbox provider of the repository:

* `backend/core/sandbox/api.py` — `normalize_path`, `_fix_path_duplications`
* `backend/core/sandbox/workspace_config.py` — `WorkspaceConfig`
* `backend/core/sandbox/tool_base.py` — `SandboxToolsBase._ensure_sandbox`
* `backend/core/sandbox/providers/local_process.py` — `LocalProcessSandbox`,
  `_LocalFS`
* `backend/core/sandbox/sandbox.py` — local-provider `get_or_start_sandbox`

Strings are modelled as Lean `String` (Python `str` and Lean `String` are
both sequences of Unicode code points; indices/slices in the translated
code are code-point counts on both sides).  Filesystem state is modelled
explicitly as a value (a set of directories plus a map from paths to byte
contents), and subprocess execution is modelled by an oracle describing the
behaviour (wall-clock runtime, exit code, stdout, stderr) of each spawned
process.  The filesystem model assumes a symlink-free filesystem, so
`pathlib.Path.resolve()` is modelled as lexical resolution of `.` and `..`.
-/

/-! ## Character helpers -/

/-- One step of Python `str.replace('\\', '/')`: map a backslash to a slash,
leave every other character unchanged. -/
def slashify (c : Char) : Char :=
  if c = '\\' then '/' else c

/-- Python `str.split('/')` on a character list: always returns a non-empty
list of segments; empty segments appear between consecutive separators and
at the ends, exactly as in Python. -/
def splitSlash : List Char → List (List Char)
  | [] => [[]]
  | c :: rest =>
    match splitSlash rest with
    | [] => [[]]
    | seg :: segs => if c = '/' then [] :: seg :: segs else (c :: seg) :: segs

/-- Python `'/'.join(parts)` on character-list segments. -/
def intercalateSlash : List (List Char) → List Char
  | [] => []
  | [x] => x
  | x :: y :: rest => x ++ '/' :: intercalateSlash (y :: rest)

/-- The non-empty segments of a character list under `'/'`-splitting. -/
def charParts (l : List Char) : List (List Char) :=
  (splitSlash l).filter (· ≠ [])

/-- The non-empty `'/'`-separated segments of a string after backslash
normalization: `[part for part in path.replace('\\','/').split('/') if part]`
from `_fix_path_duplications`. -/
def nonEmptySegs (s : String) : List (List Char) :=
  charParts (s.data.map slashify)

/-- The consecutive-duplicate collapsing loop of `_fix_path_duplications`
(`api.py` lines 107-120): append the current part, and when the next part is
identical skip over both. -/
def dedupSegs : List (List Char) → List (List Char)
  | [] => []
  | [x] => [x]
  | x :: y :: rest => if y = x then x :: dedupSegs rest else x :: dedupSegs (y :: rest)

/-- Hex digit test used for `%XX` and `\uXXXX` escapes. -/
def isHexDigit (c : Char) : Bool :=
  c.isDigit || ('a' ≤ c && c ≤ 'f') || ('A' ≤ c && c ≤ 'F')

/-- Numeric value of a hex digit. -/
def hexVal (c : Char) : Nat :=
  if c.isDigit then c.toNat - 48
  else if 'a' ≤ c then c.toNat - 87
  else c.toNat - 55

/-! ## `urllib.parse.unquote`

`unquote` percent-decodes maximal runs of `%XX` byte escapes and decodes
each run as UTF-8 (`errors='replace'`).  A `%` not followed by two hex
digits is kept literally.  The replacement granularity of invalid UTF-8
sequences is approximated (one U+FFFD per rejected byte); no theorem below
exercises non-ASCII escapes. -/

/-- Is `b` a UTF-8 continuation byte? -/
def isContByte (b : Nat) : Bool := 128 ≤ b && b ≤ 191

/-- Fuelled worker for `utf8Decode`.  Every step consumes at least one
byte, so fuel equal to the input length is always sufficient; the fuel
only makes the recursion structural (and hence kernel-reducible). -/
def utf8DecodeFuel : Nat → List Nat → List Char
  | 0, _ => []
  | _ + 1, [] => []
  | fuel + 1, b :: rest =>
    if b < 128 then Char.ofNat b :: utf8DecodeFuel fuel rest
    else if 194 ≤ b && b ≤ 223 then
      match rest with
      | c :: rest2 =>
        if isContByte c then
          Char.ofNat ((b - 192) * 64 + (c - 128)) :: utf8DecodeFuel fuel rest2
        else '\uFFFD' :: utf8DecodeFuel fuel (c :: rest2)
      | [] => ['\uFFFD']
    else if 224 ≤ b && b ≤ 239 then
      match rest with
      | c :: d :: rest3 =>
        let cOk :=
          if b = 224 then 160 ≤ c && c ≤ 191
          else if b = 237 then 128 ≤ c && c ≤ 159
          else isContByte c
        if cOk && isContByte d then
          Char.ofNat ((b - 224) * 4096 + (c - 128) * 64 + (d - 128))
            :: utf8DecodeFuel fuel rest3
        else '\uFFFD' :: utf8DecodeFuel fuel (c :: d :: rest3)
      | [_] => ['\uFFFD', '\uFFFD']
      | [] => ['\uFFFD']
    else if 240 ≤ b && b ≤ 244 then
      match rest with
      | c :: d :: e :: rest4 =>
        let cOk :=
          if b = 240 then 144 ≤ c && c ≤ 191
          else if b = 244 then 128 ≤ c && c ≤ 143
          else isContByte c
        if cOk && isContByte d && isContByte e then
          Char.ofNat ((b - 240) * 262144 + (c - 128) * 4096 + (d - 128) * 64 + (e - 128))
            :: utf8DecodeFuel fuel rest4
        else '\uFFFD' :: utf8DecodeFuel fuel (c :: d :: e :: rest4)
      | [_, _] => ['\uFFFD', '\uFFFD', '\uFFFD']
      | [_] => ['\uFFFD', '\uFFFD']
      | [] => ['\uFFFD']
    else '\uFFFD' :: utf8DecodeFuel fuel rest

/-- Decode a byte sequence as UTF-8 with replacement of invalid input
(Python `bytes.decode('utf-8', errors='replace')`, with approximated
replacement granularity for invalid sequences). -/
def utf8Decode (l : List Nat) : List Char := utf8DecodeFuel l.length l

/-- Do the characters after a `%` start with two hex digits? -/
def matchesPct : List Char → Bool
  | a :: b :: _ => isHexDigit a && isHexDigit b
  | _ => false

/-- The byte value of the two hex digits after a `%`. -/
def pctVal : List Char → Nat
  | a :: b :: _ => 16 * hexVal a + hexVal b
  | _ => 0

/-- Fuelled worker for `unquoteChars`: `pending` holds the bytes of the
current maximal run of `%XX` escapes (most recent first); the run is
decoded as UTF-8 as soon as a non-escape character (or the end of the
input) is reached, exactly as `urllib.parse.unquote` decodes each maximal
escape run as one byte string.  A `%` not followed by two hex digits is
flushed literally and scanning resumes right after it.  Every step
consumes at least one character, so fuel equal to the input length is
always sufficient. -/
def unquoteFuel : Nat → List Nat → List Char → List Char
  | 0, pending, l => utf8Decode pending.reverse ++ l
  | _ + 1, pending, [] => utf8Decode pending.reverse
  | fuel + 1, pending, c :: rest =>
    if c = '%' && matchesPct rest then
      unquoteFuel fuel (pctVal rest :: pending) (rest.drop 2)
    else utf8Decode pending.reverse ++ c :: unquoteFuel fuel [] rest

/-- `urllib.parse.unquote`: scan for `%XX` escapes; decode each maximal run
of escapes as UTF-8; keep a `%` not followed by two hex digits literally. -/
def unquoteChars (l : List Char) : List Char := unquoteFuel l.length [] l

/-- The `\uXXXX` textual-escape substitution of `normalize_path`
(`api.py` lines 54-61): replace each regex match of `\\u([0-9a-fA-F]{4})`
by the corresponding code point, scanning left to right.  `matchesUEscape`
tests whether the five characters after a backslash form `uXXXX` with `X`
hex. -/
def matchesUEscape : List Char → Bool
  | 'u' :: a :: b :: c :: d :: _ =>
    isHexDigit a && isHexDigit b && isHexDigit c && isHexDigit d
  | _ => false

/-- The code-point value of a matched `uXXXX` suffix. -/
def uEscapeVal : List Char → Nat
  | _ :: a :: b :: c :: d :: _ =>
    ((hexVal a * 16 + hexVal b) * 16 + hexVal c) * 16 + hexVal d
  | _ => 0

/-- Fuelled worker: at a backslash followed by `uXXXX` (hex), emit the code
point and skip the five matched characters; otherwise emit the current
character and continue scanning with the next one, exactly like the
left-to-right non-overlapping regex substitution. -/
def subUnicodeEscapesFuel : Nat → List Char → List Char
  | 0, l => l
  | _ + 1, [] => []
  | fuel + 1, ch :: rest =>
    if ch = '\\' && matchesUEscape rest then
      Char.ofNat (uEscapeVal rest) :: subUnicodeEscapesFuel fuel (rest.drop 5)
    else ch :: subUnicodeEscapesFuel fuel rest

/-- See the doc comment above `subUnicodeEscapesFuel`; fuel equal to the
input length is always sufficient. -/
def subUnicodeEscapes (l : List Char) : List Char := subUnicodeEscapesFuel l.length l

/-! ## `_fix_path_duplications` and `normalize_path` (`api.py`) -/

/-- `_fix_path_duplications(path)` (`api.py` lines 82-136): normalize
backslashes, split into non-empty segments, collapse consecutive duplicate
segments, and rebuild the path with a leading `/` (the code always prepends
`'/'` when at least two segments were found). -/
def fix_path_duplications (path : String) : String :=
  let parts := nonEmptySegs path
  if parts.length < 2 then path
  else
    let dedup := dedupSegs parts
    if dedup = [] then "/"
    else String.mk ('/' :: intercalateSlash dedup)

/-! ## `WorkspaceConfig` (`workspace_config.py`) -/

/-- Python `str.lstrip('/')`. -/
def lstripSlash (s : String) : String :=
  String.mk (s.data.dropWhile (· = '/'))

/-- The workspace configuration state (`workspace_config.py` lines 17-27):
the workspace root with any trailing slashes already stripped
(`rstrip("/")` is applied in `__init__`), and the active provider name. -/
structure WorkspaceConfig where
  WORKSPACE_ROOT : String
  PROVIDER : String
deriving DecidableEq, Repr

/-- `WorkspaceConfig.get_project_workspace_path` (lines 29-47): both the
Daytona branch and the local branch return the configured workspace root. -/
def WorkspaceConfig.get_project_workspace_path (cfg : WorkspaceConfig)
    (project_id : String) : String :=
  if cfg.PROVIDER = "daytona" then cfg.WORKSPACE_ROOT else cfg.WORKSPACE_ROOT

/-- `WorkspaceConfig.get_project_directory_path` (lines 49-64): under
Daytona, project files live in `WORKSPACE_ROOT/{project_id}`; under the
local provider the workspace root itself is the project directory. -/
def WorkspaceConfig.get_project_directory_path (cfg : WorkspaceConfig)
    (project_id : String) : String :=
  if cfg.PROVIDER = "daytona" then cfg.WORKSPACE_ROOT ++ "/" ++ project_id
  else cfg.WORKSPACE_ROOT

/-- Python `s.startswith(pre)`: code-point prefix test (kernel-reducible
list implementation). -/
def pyStartsWith (s pre : String) : Bool := pre.data.isPrefixOf s.data

/-- Python `s[n:]`: drop the first `n` code points. -/
def pyDrop (s : String) (n : Nat) : String := String.mk (s.data.drop n)

/-- `WorkspaceConfig.normalize_path` (lines 80-105): strip leading slashes,
strip a leading workspace-root path start (itself taken without leading
slashes) when present, then strip a leading `{project_id}/` start when
present. -/
def WorkspaceConfig.normalize_path (cfg : WorkspaceConfig) (path project_id : String) :
    String :=
  let path := lstripSlash path
  let wsPrefixStr := lstripSlash cfg.WORKSPACE_ROOT
  let path :=
    if pyStartsWith path wsPrefixStr then
      lstripSlash (pyDrop path wsPrefixStr.length)
    else path
  let projPrefixStr := project_id ++ "/"
  if pyStartsWith path projPrefixStr then pyDrop path projPrefixStr.length
  else path

/-- `WorkspaceConfig.resolve_absolute_path` (lines 107-128): normalize the
relative path, then join it onto the project directory (or return the
project directory itself when the normalized path is empty). -/
def WorkspaceConfig.resolve_absolute_path (cfg : WorkspaceConfig)
    (relative_path project_id : String) : String :=
  let normalized := cfg.normalize_path relative_path project_id
  let project_dir := cfg.get_project_directory_path project_id
  if normalized ≠ "" then project_dir ++ "/" ++ normalized else project_dir

/-! ### `pathlib.Path.resolve()` on a symlink-free filesystem

`is_path_safe` canonicalizes both paths with `Path(...).resolve()`.  On a
symlink-free filesystem this is lexical resolution: split on `/`, drop
empty and `.` segments, let `..` pop the previous segment (staying at the
root when there is none), and rebuild an absolute path string. -/

/-- `'/'`-split of a string without backslash conversion (Python
`str.split('/')`), as Lean strings. -/
def pySplitSlash (s : String) : List String :=
  (splitSlash s.data).map String.mk

/-- Process resolved segments onto a stack (`acc` holds the segments seen
so far, most recent first). -/
def resolveSegsAux : List String → List String → List String
  | acc, [] => acc
  | acc, s :: rest =>
    if s = "" ∨ s = "." then resolveSegsAux acc rest
    else if s = ".." then resolveSegsAux acc.tail rest
    else resolveSegsAux (s :: acc) rest

/-- Lexical model of `str(Path(s).resolve())` for an absolute input `s` on
a symlink-free filesystem. -/
def resolveStr (s : String) : String :=
  let segs := (resolveSegsAux [] (pySplitSlash s)).reverse
  "/" ++ String.intercalate "/" segs

/-- `WorkspaceConfig.is_path_safe` (lines 130-153): resolve the absolute
form of the path and the project directory and test containment with a
plain string `startswith` on the canonical forms. -/
def WorkspaceConfig.is_path_safe (cfg : WorkspaceConfig) (path project_id : String) :
    Bool :=
  let abs_path := cfg.resolve_absolute_path path project_id
  let project_dir := cfg.get_project_directory_path project_id
  pyStartsWith (resolveStr abs_path) (resolveStr project_dir)

/-- What the specification means by "the canonical path `p` lies within the
canonical directory `dir`": `p` is `dir` itself or sits strictly below it
(`dir` followed by a path separator is a prefix of `p`).  This is the
specification's notion, declared for comparison with the code's plain
`startswith` check. -/
def liesWithin (p dir : String) : Bool :=
  p = dir || pyStartsWith p (dir ++ "/")

/-! ## `normalize_path` (`api.py` lines 34-79) -/

/-- `normalize_path(path, project_id)`: URL-decode, substitute `\uXXXX`
textual escapes, fix consecutive-duplicate path segments, and finally (when
a non-empty `project_id` is supplied — Python tests truthiness) apply the
workspace-level normalization of `WorkspaceConfig.normalize_path`. -/
def normalize_path (cfg : WorkspaceConfig) (path : String)
    (project_id : Option String) : String :=
  let decoded := String.mk (unquoteChars path.data)
  let decoded := String.mk (subUnicodeEscapes decoded.data)
  let decoded := fix_path_duplications decoded
  match project_id with
  | some pid => if pid ≠ "" then cfg.normalize_path decoded pid else decoded
  | none => decoded

/-- The concrete local-provider configuration used by the witnesses and
counterexamples below: the default workspace root `/workspace` with the
`local_process` provider. -/
def localCfg : WorkspaceConfig := ⟨"/workspace", "local_process"⟩

/-- The concrete Daytona configuration (default workspace root, default
provider string). -/
def daytonaCfg : WorkspaceConfig := ⟨"/workspace", "daytona"⟩

example : fix_path_duplications "data/data/file.txt" = "/data/file.txt" := by decide
example : normalize_path localCfg "data/data/file.txt" (some "p1") = "data/file.txt" := by
  decide
example : normalize_path localCfg "a/a/a" none = "/a/a" := by decide
example : normalize_path localCfg "/a/a" none = "/a" := by decide
example : resolveStr "/workspace/../workspace_x/secret" = "/workspace_x/secret" := by decide
example : WorkspaceConfig.is_path_safe localCfg "../workspace_x/secret" "p1" = true := by
  decide
example : WorkspaceConfig.is_path_safe localCfg "../../etc/passwd" "p1" = false := by
  decide

/-! ## Sandbox metadata reconciliation (`tool_base.py`) -/

/-- The project's `sandbox` metadata record as stored in the external
metadata store (spec §6: `{id, pass?, provider, vnc_preview?, sandbox_url?,
token?}`).  `none` models an absent key; `some ""` models a present but
empty string (which Python's truthiness check treats like an absent id). -/
structure SandboxRecord where
  id : Option String
  pass : Option String
  provider : Option String
  vnc_preview : Option String
  sandbox_url : Option String
  token : Option String
deriving DecidableEq, Repr

/-- Python's truthiness test `not sandbox_info.get('id')`: the id counts as
missing when the key is absent or maps to an empty string. -/
def SandboxRecord.idMissing (rec : SandboxRecord) : Bool :=
  rec.id = none || rec.id = some ""

/-- The metadata reconciliation step of `SandboxToolsBase._ensure_sandbox`
for the local providers (`tool_base.py` lines 69-86): when the id is
missing (falsy) it is set to the project id; when the stored provider
differs from the active `PROVIDER` it is overwritten with the active
provider.  Returns the reconciled record and the `must_update` flag that
decides whether the record is written back to the store. -/
def reconcile_sandbox_info (PROVIDER project_id : String) (rec : SandboxRecord) :
    SandboxRecord × Bool :=
  let (rec, must_update) :=
    if rec.idMissing then ({ rec with id := some project_id }, true)
    else (rec, false)
  if rec.provider ≠ some PROVIDER then ({ rec with provider := some PROVIDER }, true)
  else (rec, must_update)

/-! ## The local sandbox handle (`providers/local_process.py`,
`sandbox.py`) -/

/-- `LocalProcessSandbox` (`local_process.py` lines 113-126): id, workspace
root and lifecycle state (initially `"RUNNING"`).  The `fs` and `process`
adapters are modelled separately as functions over an explicit filesystem
state. -/
structure LocalProcessSandbox where
  id : String
  workspace_root : String
  state : String
deriving DecidableEq, Repr

/-- Local-provider `get_or_start_sandbox` (`sandbox.py` lines 103-107):
there is no real "start"; a logical handle rooted at the project workspace
path is returned, in the `RUNNING` state. -/
def get_or_start_sandbox (cfg : WorkspaceConfig) (sandbox_id : String) :
    LocalProcessSandbox :=
  { id := sandbox_id
    workspace_root := cfg.get_project_workspace_path sandbox_id
    state := "RUNNING" }

/-- `LocalProcessSandbox.destroy` (`local_process.py` lines 184-185): set
the handle's state to `ARCHIVED` and report success.  The function has no
filesystem parameter because the source performs no filesystem operation
here: on-disk data is untouched. -/
def LocalProcessSandbox.destroy (sb : LocalProcessSandbox) : LocalProcessSandbox × Bool :=
  ({ sb with state := "ARCHIVED" }, true)

/-! ## `SandboxToolsBase._ensure_sandbox` (`tool_base.py` lines 38-99,
local-provider branch) -/

/-- The per-tool cached sandbox fields of `SandboxToolsBase`
(`tool_base.py` lines 33-35). -/
structure ToolState where
  _sandbox : Option LocalProcessSandbox
  _sandbox_id : Option String
  _sandbox_pass : Option String
deriving DecidableEq, Repr

/-- The database view seen by `_ensure_sandbox`: `none` when no DB client
is available, `some none` when the client is available but the project row
is missing, and `some (some rec)` when the project row exists with
sandbox metadata `rec` (an all-`none` record models a row whose `sandbox`
field is null: `project_data.get('sandbox') or {}`). -/
abbrev DbView := Option (Option SandboxRecord)

/-- `SandboxToolsBase._ensure_sandbox`, local-provider branch
(`tool_base.py` lines 44-99): return the cached handle if one exists;
otherwise read the project record (erroring when the client exists but the
project row is missing), reconcile the metadata, remember the sandbox id
and pass, and build the local handle via `get_or_start_sandbox`.  The
error case models the raised `ValueError`. -/
def ensure_sandbox (cfg : WorkspaceConfig) (PROVIDER project_id : String)
    (db : DbView) (st : ToolState) : Except String (LocalProcessSandbox × ToolState) :=
  match st._sandbox with
  | some sb => .ok (sb, st)
  | none =>
    match db with
    | some none => .error ("Project " ++ project_id ++ " not found in DB")
    | some (some rec) =>
      let rec2 := (reconcile_sandbox_info PROVIDER project_id rec).1
      let sid := rec2.id.getD project_id
      let sb := get_or_start_sandbox cfg sid
      .ok (sb, { _sandbox := some sb, _sandbox_id := some sid, _sandbox_pass := rec2.pass })
    | none =>
      let sb := get_or_start_sandbox cfg project_id
      .ok (sb, { _sandbox := some sb, _sandbox_id := some project_id,
                 _sandbox_pass := none })

/-! ## Subprocess execution (`local_process.py` lines 148-182) -/

/-- The behaviour of one spawned subprocess, as an oracle: its wall-clock
runtime in seconds and, if allowed to finish, its exit code and captured
output streams. -/
structure ProcBehavior where
  runtime : Nat
  exitCode : Int
  stdout : String
  stderr : String

/-- The `{code, stdout, stderr}` result dictionary of
`LocalProcessSandbox.exec`. -/
structure ExecResult where
  code : Int
  stdout : String
  stderr : String
deriving DecidableEq, Repr

/-- `exec` accepts a command either as a string or as a list joined with
single spaces (`local_process.py` lines 149-150). -/
def cmd_string : String ⊕ List String → String
  | .inl s => s
  | .inr parts => String.intercalate " " parts

/-- `LocalProcessSandbox.exec` (lines 148-161): run the command via the
shell in `cwd` (defaulting to the workspace root) and wait for it with
`asyncio.wait_for(…, timeout)`.  If the runtime exceeds the timeout the
process is killed and `{124, "", "timeout"}` is returned; otherwise the
process's own exit code and decoded output are returned.  The second
component of the result records whether the subprocess was killed.  The
subprocess behaviour is supplied by the oracle `env`, as a function of the
command string and working directory.  The function is total: a timeout is
a normal return value, never an exception. -/
def LocalProcessSandbox.exec (sb : LocalProcessSandbox)
    (env : String → String → ProcBehavior) (cmd : String ⊕ List String)
    (cwd : Option String) (timeout : Nat) : ExecResult × Bool :=
  let proc := env (cmd_string cmd) (cwd.getD sb.workspace_root)
  if timeout < proc.runtime then (⟨124, "", "timeout"⟩, true)
  else (⟨proc.exitCode, proc.stdout, proc.stderr⟩, false)

/-- The result dictionary of `run_python`: on the short-circuit paths the
`script`/`workdir` keys are absent (`none`); after the script phase they
are present. -/
structure RunPyResult where
  code : Int
  stdout : String
  stderr : String
  script : Option String
  workdir : Option String
deriving DecidableEq, Repr

/-- Observable side effects of one `run_python` call: whether the virtual
environment was (re)created, and whether the user script was written to
disk and executed (with its contents when written). -/
structure RunPyEffects where
  venvCreated : Bool
  scriptWritten : Bool
  scriptExecuted : Bool
  scriptContent : Option String
deriving DecidableEq, Repr

/-- The fixed pip invocation prefix of `run_python` (line 167). -/
def pipInvocation (py : String) : List String :=
  [py, "-m", "pip", "install", "--disable-pip-version-check", "--no-input"]

/-- The venv directory for a project: `self._venvs / project_id` under the
workspace root (lines 122-129). -/
def venvDirOf (sb : LocalProcessSandbox) (project_id : String) : String :=
  sb.workspace_root ++ "/.venvs/" ++ project_id

/-- The interpreter used by `run_python`: an explicit `python_bin` override
or the venv's `bin/python` (lines 145-146, 166). -/
def venvPython (sb : LocalProcessSandbox) (project_id : String)
    (python_bin : Option String) : String :=
  python_bin.getD (venvDirOf sb project_id ++ "/bin/python")

/-- The working directory of `run_python`: the explicit `workdir` or
`self._root / project_id` (line 168). -/
def runPyWorkdir (sb : LocalProcessSandbox) (project_id : String)
    (workdir : Option String) : String :=
  workdir.getD (sb.workspace_root ++ "/" ++ project_id)

/-- The pip install command line of `run_python` (lines 167, 170):
`" ".join([*pip, *requirements])`. -/
def installCmdStr (py : String) (reqs : List String) : String :=
  String.intercalate " " (pipInvocation py ++ reqs)

/-- `LocalProcessSandbox.run_python` (lines 163-182): ensure the
per-project venv (created only when its `pyvenv.cfg` sentinel is absent —
`venvHasCfg` is the oracle for that check), pick the interpreter, ensure
the working directory, optionally install the requirements through `exec`
(Python truthiness: `None` and `[]` both skip the install), short-circuit
with the installer's `{code, stdout, stderr}` when the install exits
non-zero, and otherwise write the script (its temporary name supplied by
the oracle `scriptName`) and execute it under the same timeout regime as
`exec`. -/
def LocalProcessSandbox.run_python (sb : LocalProcessSandbox)
    (venvHasCfg : Bool) (env : String → String → ProcBehavior)
    (scriptProc : ProcBehavior) (scriptName : String) (code project_id : String)
    (requirements : Option (List String)) (workdir : Option String)
    (timeout : Nat) (python_bin : Option String) : RunPyResult × RunPyEffects :=
  let venvCreated := !venvHasCfg
  let py := venvPython sb project_id python_bin
  let wd := runPyWorkdir sb project_id workdir
  let runScript : RunPyResult × RunPyEffects :=
    if timeout < scriptProc.runtime then
      (⟨124, "", "timeout", some scriptName, some wd⟩,
       ⟨venvCreated, true, true, some code⟩)
    else
      (⟨scriptProc.exitCode, scriptProc.stdout, scriptProc.stderr,
        some scriptName, some wd⟩,
       ⟨venvCreated, true, true, some code⟩)
  if requirements.getD [] ≠ [] then
    let inst := (sb.exec env (.inl (installCmdStr py (requirements.getD [])))
      (some wd) timeout).1
    if inst.code ≠ 0 then
      (⟨inst.code, inst.stdout, inst.stderr, none, none⟩,
       ⟨venvCreated, false, false, none⟩)
    else runScript
  else runScript

/-! ## The local filesystem adapter `_LocalFS`
(`local_process.py` lines 19-85)

The on-disk state is modelled as a value: a list of directory paths and an
association list from file paths to byte contents.  Paths are canonical
segment lists (as produced by `pathlib`, which drops empty and `.`
components); all paths are absolute.  Timestamps (`mod_time`) and the
`st_size` of directories are outside the model; a symlink-free filesystem
is assumed. -/

/-- A path as its `pathlib` segment list: split on `/`, dropping empty and
`.` components (`PurePosixPath` normalization). -/
def pathlibSegs (s : String) : List String :=
  (pySplitSlash s).filter (fun seg => seg ≠ "" ∧ seg ≠ ".")

/-- `_LocalFS._abs` (lines 23-26): an absolute input is used as is, a
relative one is joined under the adapter's root.  The result is the
canonical segment list of the absolute path. -/
def absSegs (root path : String) : List String :=
  if pyStartsWith path "/" then pathlibSegs path
  else pathlibSegs root ++ pathlibSegs path

/-- The modelled on-disk state. -/
structure LocalFSState where
  dirs : List (List String)
  files : List (List String × List Nat)
deriving DecidableEq, Repr

/-- Does anything (directory or file) exist at this path
(`Path.exists()`)? -/
def LocalFSState.existsAt (fs : LocalFSState) (p : List String) : Bool :=
  decide (p ∈ fs.dirs) || decide (p ∈ fs.files.map Prod.fst)

/-- `_LocalFS.upload_file` (lines 54-58): create the parent directory and
all missing ancestors (`mkdir(parents=True, exist_ok=True)`), then write
the raw bytes at the path, replacing any previous contents.  OS-level
failure modes (e.g. a directory already sitting at the file path) are
outside the model. -/
def upload_file (fs : LocalFSState) (root : String) (data : List Nat) (path : String) :
    LocalFSState :=
  let p := absSegs root path
  { dirs := p.dropLast.inits ++ fs.dirs
    files := (p, data) :: fs.files.filter (fun e => e.1 ≠ p) }

/-- `_LocalFS.download_file` (lines 50-52): read the raw bytes at the
path; `none` models the `FileNotFoundError` raised on a missing file. -/
def download_file (fs : LocalFSState) (root : String) (path : String) :
    Option (List Nat) :=
  (fs.files.find? (fun e => e.1 = absSegs root path)).map Prod.snd

/-- The `_FileInfo` record of the local provider (lines 11-16), without the
`mod_time` timestamp, which is outside the model. -/
structure LocalFileInfo where
  name : String
  is_dir : Bool
  size : Nat
deriving DecidableEq, Repr

/-- Fuelled worker for `replaceAll`; every step consumes at least one
character, so fuel equal to the input length is always sufficient. -/
def replaceAllFuel (pat repl : List Char) : Nat → List Char → List Char
  | 0, l => l
  | _ + 1, [] => []
  | fuel + 1, c :: rest =>
    if pat ≠ [] ∧ pat.isPrefixOf (c :: rest) then
      repl ++ replaceAllFuel pat repl fuel ((c :: rest).drop pat.length)
    else c :: replaceAllFuel pat repl fuel rest

/-- Python `str.replace(pat, repl)` on character lists: replace every
(non-overlapping, leftmost-first) occurrence of `pat`. -/
def replaceAll (pat repl : List Char) (l : List Char) : List Char :=
  replaceAllFuel pat repl l.length l

/-- The absolute path string of a canonical segment list, as `str(Path)`
renders it. -/
def segsToString (p : List String) : String :=
  "/" ++ String.intercalate "/" p

/-- The `rel` name computed by `get_file_info`/`list_files` (lines 31, 44):
`str(entry).replace(str(root).rstrip('/') + '/', '')` — a replace-all of
the root-plus-slash substring inside the entry's path string. -/
def relName (root : String) (p : List String) : String :=
  let rootStr := String.mk ((segsToString (pathlibSegs root)).data.reverse.dropWhile
    (· = '/')).reverse ++ "/"
  String.mk (replaceAll rootStr.data [] (segsToString p).data)

/-- The byte size recorded for a path: the content length for files;
directory sizes are outside the model and reported as 0. -/
def LocalFSState.sizeAt (fs : LocalFSState) (p : List String) : Nat :=
  ((fs.files.find? (fun e => e.1 = p)).map (fun e => e.2.length)).getD 0

/-- The `_FileInfo` record for one directory entry. -/
def mkFileInfo (fs : LocalFSState) (root : String) (p : List String) : LocalFileInfo :=
  { name := relName root p
    is_dir := decide (p ∈ fs.dirs)
    size := fs.sizeAt p }

/-- The direct children of a directory (`Path.iterdir()`): every recorded
path exactly one segment below it. -/
def LocalFSState.childrenOf (fs : LocalFSState) (base : List String) :
    List (List String) :=
  (fs.dirs ++ fs.files.map Prod.fst).filter
    (fun p => decide (p.length = base.length + 1 ∧ base <+: p))

/-- `_LocalFS.list_files` (lines 36-48): an absent base path yields the
empty list; an existing directory yields a (flat, non-recursive) listing of
its direct children; `iterdir` on an existing non-directory raises
(`none`). -/
def list_files (fs : LocalFSState) (root : String) (base : String) :
    Option (List LocalFileInfo) :=
  let basep := absSegs root base
  if ¬ fs.existsAt basep then some []
  else if basep ∈ fs.dirs then
    some ((fs.childrenOf basep).map (mkFileInfo fs root))
  else none

/-! ## Helper lemmas about the segment machinery -/

theorem strMk_data (s : String) : String.mk s.data = s := by
  cases s
  rfl

theorem splitSlash_ne_nil (l : List Char) : splitSlash l ≠ [] := by
  induction l with
  | nil => simp [splitSlash]
  | cons c rest ih =>
    rw [splitSlash]
    rcases h : splitSlash rest with _ | ⟨seg, segs⟩
    · exact absurd h ih
    · simp only []
      split <;> simp

theorem splitSlash_cons_slash (l : List Char) :
    splitSlash ('/' :: l) = [] :: splitSlash l := by
  simp only [splitSlash]
  rcases h : splitSlash l with _ | ⟨seg, segs⟩
  · exact absurd h (splitSlash_ne_nil l)
  · simp

theorem splitSlash_no_slash (x : List Char) (hx : ∀ c ∈ x, c ≠ '/') :
    splitSlash x = [x] := by
  induction x with
  | nil => rfl
  | cons c rest ih =>
    have hc : c ≠ '/' := hx c (by simp)
    have hrest := ih (fun d hd => hx d (by simp [hd]))
    simp only [splitSlash, hrest]
    simp [hc]

theorem splitSlash_append_slash (x l : List Char) (hx : ∀ c ∈ x, c ≠ '/') :
    splitSlash (x ++ '/' :: l) = x :: splitSlash l := by
  induction x with
  | nil => simpa using splitSlash_cons_slash l
  | cons c rest ih =>
    have hc : c ≠ '/' := hx c (by simp)
    have hrest := ih (fun d hd => hx d (by simp [hd]))
    rw [List.cons_append, splitSlash, hrest]
    simp [hc]

theorem mem_splitSlash (l : List Char) (seg : List Char) (hseg : seg ∈ splitSlash l)
    (c : Char) (hc : c ∈ seg) : c ∈ l ∧ c ≠ '/' := by
  induction l generalizing seg with
  | nil =>
    simp [splitSlash] at hseg
    subst hseg
    simp at hc
  | cons d rest ih =>
    rw [splitSlash] at hseg
    rcases h : splitSlash rest with _ | ⟨seg0, segs⟩
    · exact absurd h (splitSlash_ne_nil rest)
    · simp only [h] at hseg
      by_cases hd : d = '/'
      · simp only [if_pos hd, List.mem_cons] at hseg
        rcases hseg with hseg | hseg | hseg
        · subst hseg; simp at hc
        · subst hseg
          have := ih seg (by rw [h]; exact List.mem_cons_self _ _) hc
          exact ⟨List.mem_cons_of_mem _ this.1, this.2⟩
        · have := ih seg (by rw [h]; exact List.mem_cons_of_mem _ hseg) hc
          exact ⟨List.mem_cons_of_mem _ this.1, this.2⟩
      · simp only [if_neg hd, List.mem_cons] at hseg
        rcases hseg with hseg | hseg
        · subst hseg
          rcases List.mem_cons.mp hc with hc | hc
          · subst hc; exact ⟨List.mem_cons_self _ _, hd⟩
          · have := ih seg0 (by rw [h]; exact List.mem_cons_self _ _) hc
            exact ⟨List.mem_cons_of_mem _ this.1, this.2⟩
        · have := ih seg (by rw [h]; exact List.mem_cons_of_mem _ hseg) hc
          exact ⟨List.mem_cons_of_mem _ this.1, this.2⟩

theorem charParts_cons_slash (l : List Char) : charParts ('/' :: l) = charParts l := by
  simp [charParts, splitSlash_cons_slash]

/-- Round trip: re-splitting a `'/'`-join of non-empty, slash-free segments
recovers the segments. -/
theorem charParts_intercalate (L : List (List Char)) (hne : L ≠ [])
    (hval : ∀ x ∈ L, x ≠ [] ∧ ∀ c ∈ x, c ≠ '/') :
    charParts (intercalateSlash L) = L := by
  induction L with
  | nil => exact absurd rfl hne
  | cons x L ih =>
    rcases L with _ | ⟨y, L0⟩
    · have hx := hval x (by simp)
      simp [charParts, intercalateSlash, splitSlash_no_slash x hx.2, hx.1]
    · have hx := hval x (by simp)
      have : charParts (intercalateSlash (x :: y :: L0)) =
          x :: charParts (intercalateSlash (y :: L0)) := by
        simp only [intercalateSlash, charParts,
          splitSlash_append_slash x _ hx.2, List.filter_cons]
        simp [hx.1, charParts]
      rw [this, ih (by simp) (fun z hz => hval z (by simp [hz]))]

theorem dedupSegs_short (L : List (List Char)) (h : L.length ≤ 1) :
    dedupSegs L = L := by
  rcases L with _ | ⟨x, _ | ⟨y, t⟩⟩
  · rfl
  · rfl
  · simp at h

theorem dedupSegs_cons_dup (s : List Char) (t : List (List Char)) :
    dedupSegs (s :: s :: t) = s :: dedupSegs t := by
  simp [dedupSegs]

theorem dedupSegs_ne_nil (L : List (List Char)) (h : L ≠ []) : dedupSegs L ≠ [] := by
  rcases L with _ | ⟨x, _ | ⟨y, t⟩⟩
  · exact absurd rfl h
  · simp [dedupSegs]
  · rw [dedupSegs]
    split <;> simp

theorem dedupSegs_subset : ∀ (L : List (List Char)) (x : List Char),
    x ∈ dedupSegs L → x ∈ L
  | [], x, hx => by simp [dedupSegs] at hx
  | [y], x, hx => by simpa [dedupSegs] using hx
  | a :: b :: t, x, hx => by
    rw [dedupSegs] at hx
    by_cases hb : b = a
    · rw [if_pos hb] at hx
      rcases List.mem_cons.mp hx with hx | hx
      · simp [hx]
      · exact List.mem_cons_of_mem _ (List.mem_cons_of_mem _ (dedupSegs_subset t x hx))
    · rw [if_neg hb] at hx
      rcases List.mem_cons.mp hx with hx | hx
      · simp [hx]
      · exact List.mem_cons_of_mem _ (dedupSegs_subset (b :: t) x hx)

theorem dedupSegs_of_chain : ∀ L : List (List Char),
    List.Chain' (· ≠ ·) L → dedupSegs L = L
  | [], _ => rfl
  | [x], _ => rfl
  | a :: b :: t, h => by
    have hab : a ≠ b := (List.chain'_cons.mp h).1
    rw [dedupSegs, if_neg (fun hba => hab hba.symm),
      dedupSegs_of_chain (b :: t) (List.chain'_cons.mp h).2]

theorem mem_map_slashify (l : List Char) (c : Char) (hc : c ∈ l.map slashify) :
    c = '/' ∨ c ∈ l := by
  rcases List.mem_map.mp hc with ⟨d, hd, hcd⟩
  by_cases hb : d = '\\'
  · subst hb; subst hcd; left; simp [slashify]
  · right
    rw [← hcd]
    simpa [slashify, hb] using hd

theorem bs_not_mem_map_slashify (l : List Char) : '\\' ∉ l.map slashify := by
  intro h
  rcases List.mem_map.mp h with ⟨d, _, hcd⟩
  by_cases hb : d = '\\' <;> simp [slashify, hb] at hcd

theorem map_slashify_id (l : List Char) (h : '\\' ∉ l) : l.map slashify = l := by
  induction l with
  | nil => rfl
  | cons c rest ih =>
    have hc : c ≠ '\\' := fun hcc => h (by simp [hcc])
    simp only [List.map_cons, slashify, if_neg hc,
      ih (fun hr => h (List.mem_cons_of_mem _ hr))]

theorem mem_intercalateSlash (L : List (List Char)) (c : Char)
    (hc : c ∈ intercalateSlash L) : c = '/' ∨ ∃ x ∈ L, c ∈ x := by
  induction L with
  | nil => simp [intercalateSlash] at hc
  | cons x L ih =>
    rcases L with _ | ⟨y, t⟩
    · right; exact ⟨x, by simp, by simpa [intercalateSlash] using hc⟩
    · rw [intercalateSlash] at hc
      rcases List.mem_append.mp hc with hc | hc
      · right; exact ⟨x, by simp, hc⟩
      · rcases List.mem_cons.mp hc with hc | hc
        · left; exact hc
        · rcases ih hc with hc | ⟨z, hz, hcz⟩
          · left; exact hc
          · right; exact ⟨z, List.mem_cons_of_mem _ hz, hcz⟩

theorem unquoteFuel_id (fuel : Nat) (l : List Char) (h : '%' ∉ l) :
    unquoteFuel fuel [] l = l := by
  induction fuel generalizing l with
  | zero => simp [unquoteFuel, utf8Decode, utf8DecodeFuel]
  | succ fuel ih =>
    cases l with
    | nil => simp [unquoteFuel, utf8Decode, utf8DecodeFuel]
    | cons c rest =>
      have hc : c ≠ '%' := fun hcc => h (by simp [hcc])
      rw [unquoteFuel, if_neg (by simp [hc]),
        ih rest (fun hr => h (List.mem_cons_of_mem _ hr))]
      simp [utf8Decode, utf8DecodeFuel]

theorem unquoteChars_id (l : List Char) (h : '%' ∉ l) : unquoteChars l = l :=
  unquoteFuel_id l.length l h

theorem subUnicodeEscapesFuel_id (fuel : Nat) (l : List Char) (h : '\\' ∉ l) :
    subUnicodeEscapesFuel fuel l = l := by
  induction fuel generalizing l with
  | zero => rfl
  | succ fuel ih =>
    cases l with
    | nil => rfl
    | cons c rest =>
      have hc : c ≠ '\\' := fun hcc => h (by simp [hcc])
      rw [subUnicodeEscapesFuel, if_neg (by simp [hc]),
        ih rest (fun hr => h (List.mem_cons_of_mem _ hr))]

theorem subUnicodeEscapes_id (l : List Char) (h : '\\' ∉ l) :
    subUnicodeEscapes l = l :=
  subUnicodeEscapesFuel_id l.length l h

theorem data_mk (l : List Char) : (String.mk l).data = l := rfl

/-- Every segment of `nonEmptySegs p` is non-empty, slash-free,
backslash-free, and drawn from the characters of `p` (up to the
backslash-to-slash rewrite). -/
theorem nonEmptySegs_mem_valid (p : String) (seg : List Char)
    (h : seg ∈ nonEmptySegs p) :
    seg ≠ [] ∧ ∀ c ∈ seg, c ≠ '/' ∧ c ≠ '\\' ∧ c ∈ p.data := by
  rw [nonEmptySegs, charParts] at h
  have hmem := List.mem_filter.mp h
  refine ⟨by simpa using hmem.2, fun c hc => ?_⟩
  have h1 := mem_splitSlash _ seg hmem.1 c hc
  have h2 := mem_map_slashify _ c h1.1
  have hbs : c ≠ '\\' := fun hb => bs_not_mem_map_slashify p.data (hb ▸ h1.1)
  rcases h2 with h2 | h2
  · exact absurd h2 h1.2
  · exact ⟨h1.2, hbs, h2⟩

/-- On the at-least-two-segments branch, `_fix_path_duplications` rebuilds
the deduplicated segments behind a leading slash. -/
theorem fix_eq_of_two_le (p : String) (h : 2 ≤ (nonEmptySegs p).length) :
    fix_path_duplications p =
      String.mk ('/' :: intercalateSlash (dedupSegs (nonEmptySegs p))) := by
  have hne : nonEmptySegs p ≠ [] := by
    intro hnil; rw [hnil] at h; simp at h
  simp only [fix_path_duplications]
  rw [if_neg (by omega), if_neg (dedupSegs_ne_nil _ hne)]

/-- On the short branch, `_fix_path_duplications` returns its input. -/
theorem fix_eq_of_lt_two (p : String) (h : (nonEmptySegs p).length < 2) :
    fix_path_duplications p = p := by
  simp only [fix_path_duplications]
  rw [if_pos h]

/-- The segments of the output of `_fix_path_duplications` are exactly the
deduplicated segments of the input. -/
theorem nonEmptySegs_fix (p : String) :
    nonEmptySegs (fix_path_duplications p) = dedupSegs (nonEmptySegs p) := by
  by_cases hlen : (nonEmptySegs p).length < 2
  · rw [fix_eq_of_lt_two p hlen, dedupSegs_short _ (by omega)]
  · have hne : nonEmptySegs p ≠ [] := by
      intro hnil; rw [hnil] at hlen; simp at hlen
    have hD := dedupSegs_ne_nil _ hne
    have hvalid : ∀ x ∈ dedupSegs (nonEmptySegs p), x ≠ [] ∧ ∀ c ∈ x, c ≠ '/' := by
      intro x hx
      have hv := nonEmptySegs_mem_valid p x (dedupSegs_subset _ x hx)
      exact ⟨hv.1, fun c hc => (hv.2 c hc).1⟩
    have hnb : '\\' ∉ '/' :: intercalateSlash (dedupSegs (nonEmptySegs p)) := by
      intro hb
      rcases List.mem_cons.mp hb with hb | hb
      · simp at hb
      · rcases mem_intercalateSlash _ _ hb with hb | ⟨x, hx, hcx⟩
        · simp at hb
        · have hv := nonEmptySegs_mem_valid p x (dedupSegs_subset _ x hx)
          exact ((hv.2 _ hcx).2.1) rfl
    rw [fix_eq_of_two_le p (by omega), nonEmptySegs, data_mk, map_slashify_id _ hnb,
      charParts_cons_slash, charParts_intercalate _ hD hvalid]

/-- Every character of the output of `_fix_path_duplications` is a
character of the input or a slash. -/
theorem fix_chars (p : String) (c : Char)
    (hc : c ∈ (fix_path_duplications p).data) : c ∈ p.data ∨ c = '/' := by
  by_cases hlen : (nonEmptySegs p).length < 2
  · rw [fix_eq_of_lt_two p hlen] at hc
    exact Or.inl hc
  · rw [fix_eq_of_two_le p (by omega), data_mk] at hc
    rcases List.mem_cons.mp hc with hc | hc
    · exact Or.inr hc
    · rcases mem_intercalateSlash _ _ hc with hc | ⟨x, hx, hcx⟩
      · exact Or.inr hc
      · have hv := nonEmptySegs_mem_valid p x (dedupSegs_subset _ x hx)
        exact Or.inl (hv.2 _ hcx).2.2

/-- With a percent-free and backslash-free input, `normalize_path` with no
project id reduces to `_fix_path_duplications`. -/
theorem normalize_none_eq_fix (cfg : WorkspaceConfig) (p : String)
    (h1 : '%' ∉ p.data) (h2 : '\\' ∉ p.data) :
    normalize_path cfg p none = fix_path_duplications p := by
  simp only [normalize_path, unquoteChars_id p.data h1, strMk_data,
    subUnicodeEscapes_id p.data h2]

/-- `_fix_path_duplications` is idempotent on inputs whose segment list has
no adjacent duplicates. -/
theorem fix_idem_of_chain (p : String)
    (h : List.Chain' (· ≠ ·) (nonEmptySegs p)) :
    fix_path_duplications (fix_path_duplications p) = fix_path_duplications p := by
  have hsegs : nonEmptySegs (fix_path_duplications p) = nonEmptySegs p := by
    rw [nonEmptySegs_fix, dedupSegs_of_chain _ h]
  by_cases hlen : (nonEmptySegs p).length < 2
  · have hfp := fix_eq_of_lt_two p hlen
    rw [hfp]
    exact hfp
  · rw [fix_eq_of_two_le _ (by rw [hsegs]; omega), hsegs,
      fix_eq_of_two_le p (by omega)]

/-! ## Claim theorems -/

/-- C1: `is_path_safe` is claimed to return true only when the canonical
resolved path lies within the canonical project directory.  The code
compares canonical forms with a plain string `startswith`, so a sibling
path sharing the project directory's name as a string prefix passes the
check although it lies outside the project directory — contradicting the
function's own docstring ("True if path is safe, False if it tries to
escape").  This theorem evaluates the code at the failing inputs for both
providers, and also records that the plain traversal `../../etc/passwd` is
still rejected. -/
theorem c1_is_path_safe_prefix_sibling_escape :
    WorkspaceConfig.is_path_safe localCfg "../workspace_x/secret" "p1" = true
  ∧ resolveStr (WorkspaceConfig.resolve_absolute_path localCfg
      "../workspace_x/secret" "p1") = "/workspace_x/secret"
  ∧ liesWithin
      (resolveStr (WorkspaceConfig.resolve_absolute_path localCfg
        "../workspace_x/secret" "p1"))
      (resolveStr (WorkspaceConfig.get_project_directory_path localCfg "p1")) = false
  ∧ WorkspaceConfig.is_path_safe daytonaCfg "../p1x/f" "p1" = true
  ∧ liesWithin
      (resolveStr (WorkspaceConfig.resolve_absolute_path daytonaCfg "../p1x/f" "p1"))
      (resolveStr (WorkspaceConfig.get_project_directory_path daytonaCfg "p1")) = false
  ∧ WorkspaceConfig.is_path_safe localCfg "../../etc/passwd" "p1" = false
  ∧ WorkspaceConfig.is_path_safe daytonaCfg "../../etc/passwd" "p1" = false := by
  decide

/-- C2 (counterexample): path normalization is not idempotent.  A run of
three identical segments is collapsed pairwise, so a second pass collapses
further (`a/a/a` → `/a/a` → `/a`); with a project id, prefix stripping can
also expose a workspace-root prefix only on the second pass
(`p1/workspace/x` → `workspace/x` → `x`). -/
theorem c2_normalize_path_not_idempotent :
    (normalize_path localCfg (normalize_path localCfg "a/a/a" none) none
      ≠ normalize_path localCfg "a/a/a" none)
  ∧ normalize_path localCfg "a/a/a" none = "/a/a"
  ∧ normalize_path localCfg "/a/a" none = "/a"
  ∧ (normalize_path localCfg
      (normalize_path localCfg "p1/workspace/x" (some "p1")) (some "p1")
      ≠ normalize_path localCfg "p1/workspace/x" (some "p1"))
  ∧ normalize_path localCfg "p1/workspace/x" (some "p1") = "workspace/x"
  ∧ normalize_path localCfg "workspace/x" (some "p1") = "x" := by
  decide

/-- C2 (amended): with no project id (so the workspace-prefix stripping
step is skipped), normalization is idempotent on paths that contain no
percent character, no backslash (hence no `\uXXXX` escape), and no
consecutive duplicate segments. -/
theorem c2_normalize_path_idempotent_on_clean_paths (cfg : WorkspaceConfig)
    (p : String) (h1 : '%' ∉ p.data) (h2 : '\\' ∉ p.data)
    (h3 : List.Chain' (· ≠ ·) (nonEmptySegs p)) :
    normalize_path cfg (normalize_path cfg p none) none
      = normalize_path cfg p none := by
  rw [normalize_none_eq_fix cfg p h1 h2]
  have h1f : '%' ∉ (fix_path_duplications p).data := by
    intro hmem
    rcases fix_chars p _ hmem with hmem | hmem
    · exact h1 hmem
    · exact absurd hmem (by decide)
  have h2f : '\\' ∉ (fix_path_duplications p).data := by
    intro hmem
    rcases fix_chars p _ hmem with hmem | hmem
    · exact h2 hmem
    · exact absurd hmem (by decide)
  rw [normalize_none_eq_fix cfg _ h1f h2f]
  exact fix_idem_of_chain p h3

/-- C2 (witness): the amended idempotence at a concrete clean path. -/
theorem c2_normalize_path_idempotent_witness :
    normalize_path localCfg (normalize_path localCfg "data/reports/file.txt" none) none
      = normalize_path localCfg "data/reports/file.txt" none :=
  c2_normalize_path_idempotent_on_clean_paths localCfg "data/reports/file.txt"
    (by decide) (by decide)
    (by
      have h : nonEmptySegs "data/reports/file.txt" =
          [['d', 'a', 't', 'a'], ['r', 'e', 'p', 'o', 'r', 't', 's'],
           ['f', 'i', 'l', 'e', '.', 't', 'x', 't']] := by decide
      rw [h]
      refine List.chain'_cons.mpr ⟨by decide, ?_⟩
      refine List.chain'_cons.mpr ⟨by decide, ?_⟩
      exact List.chain'_singleton _)

/-- C3 (counterexample): metadata reconciliation does overwrite a present
field.  A record created under the Daytona provider (`provider =
"daytona"`, `id = "sb-1"`) reconciled while `PROVIDER = "local_process"`
keeps its sandbox id but gets its provider field overwritten with the
currently active provider, so the stored provider no longer reflects the
provider active at creation time. -/
theorem c3_reconcile_overwrites_provider :
    ((reconcile_sandbox_info "local_process" "p1"
        ⟨some "sb-1", some "pw", some "daytona", none, none, none⟩).1.provider
      = some "local_process")
  ∧ ((reconcile_sandbox_info "local_process" "p1"
        ⟨some "sb-1", some "pw", some "daytona", none, none, none⟩).1.provider
      ≠ some "daytona")
  ∧ ((reconcile_sandbox_info "local_process" "p1"
        ⟨some "sb-1", some "pw", some "daytona", none, none, none⟩).1.id
      = some "sb-1") := by
  decide

/-- C3 (amended): once a non-empty `sandbox_id` is recorded it is never
overwritten, and all fields other than `provider` are left untouched; the
`provider` field, however, always ends up equal to the currently active
provider (it is overwritten whenever it differs, so it reflects the last
reconciliation rather than creation time). -/
theorem c3_reconcile_id_stable_provider_refreshed
    (PROVIDER project_id : String) (rec : SandboxRecord) (s : String)
    (hid : rec.id = some s) (hs : s ≠ "") :
    ((reconcile_sandbox_info PROVIDER project_id rec).1.id = some s)
  ∧ ((reconcile_sandbox_info PROVIDER project_id rec).1.provider = some PROVIDER)
  ∧ ((reconcile_sandbox_info PROVIDER project_id rec).1.pass = rec.pass)
  ∧ ((reconcile_sandbox_info PROVIDER project_id rec).1.vnc_preview = rec.vnc_preview)
  ∧ ((reconcile_sandbox_info PROVIDER project_id rec).1.sandbox_url = rec.sandbox_url)
  ∧ ((reconcile_sandbox_info PROVIDER project_id rec).1.token = rec.token) := by
  have hmiss : rec.idMissing = false := by
    simp [SandboxRecord.idMissing, hid, hs]
  by_cases hp : rec.provider = some PROVIDER
  · simp [reconcile_sandbox_info, hmiss, hp, hid]
  · simp [reconcile_sandbox_info, hmiss, hp, hid]

/-- C3 (witness): the amended reconciliation at a concrete record. -/
theorem c3_reconcile_id_stable_witness :
    ((reconcile_sandbox_info "local_process" "p9"
        ⟨some "sb-9", some "pw", some "daytona", some "v", some "u", some "t"⟩).1.id
      = some "sb-9")
  ∧ ((reconcile_sandbox_info "local_process" "p9"
        ⟨some "sb-9", some "pw", some "daytona", some "v", some "u", some "t"⟩).1.provider
      = some "local_process")
  ∧ ((reconcile_sandbox_info "local_process" "p9"
        ⟨some "sb-9", some "pw", some "daytona", some "v", some "u", some "t"⟩).1.pass
      = (SandboxRecord.mk (some "sb-9") (some "pw") (some "daytona") (some "v")
          (some "u") (some "t")).pass)
  ∧ ((reconcile_sandbox_info "local_process" "p9"
        ⟨some "sb-9", some "pw", some "daytona", some "v", some "u", some "t"⟩).1.vnc_preview
      = (SandboxRecord.mk (some "sb-9") (some "pw") (some "daytona") (some "v")
          (some "u") (some "t")).vnc_preview)
  ∧ ((reconcile_sandbox_info "local_process" "p9"
        ⟨some "sb-9", some "pw", some "daytona", some "v", some "u", some "t"⟩).1.sandbox_url
      = (SandboxRecord.mk (some "sb-9") (some "pw") (some "daytona") (some "v")
          (some "u") (some "t")).sandbox_url)
  ∧ ((reconcile_sandbox_info "local_process" "p9"
        ⟨some "sb-9", some "pw", some "daytona", some "v", some "u", some "t"⟩).1.token
      = (SandboxRecord.mk (some "sb-9") (some "pw") (some "daytona") (some "v")
          (some "u") (some "t")).token) :=
  c3_reconcile_id_stable_provider_refreshed "local_process" "p9"
    ⟨some "sb-9", some "pw", some "daytona", some "v", some "u", some "t"⟩
    "sb-9" rfl (by decide)

/-- C4: whenever the subprocess's runtime exceeds the timeout budget,
`exec` kills the process (second component `true`) and returns the
structured result `{code := 124, stdout := "", stderr := "timeout"}`.  The
timeout is a normal return value: `exec` is a total function into
`ExecResult × Bool`, so no exception reaches the caller. -/
theorem c4_exec_timeout_returns_124 (sb : LocalProcessSandbox)
    (env : String → String → ProcBehavior) (cmd : String ⊕ List String)
    (cwd : Option String) (timeout : Nat)
    (h : timeout < (env (cmd_string cmd) (cwd.getD sb.workspace_root)).runtime) :
    sb.exec env cmd cwd timeout = (⟨124, "", "timeout"⟩, true) := by
  simp [LocalProcessSandbox.exec, h]

/-- C4 (witness): a command that would run for 5 seconds under a 1-second
budget yields the timeout result. -/
theorem c4_exec_timeout_witness :
    LocalProcessSandbox.exec ⟨"p1", "/workspace", "RUNNING"⟩
      (fun _ _ => ⟨5, 0, "", ""⟩) (.inl "sleep 5") none 1
      = (⟨124, "", "timeout"⟩, true) :=
  c4_exec_timeout_returns_124 ⟨"p1", "/workspace", "RUNNING"⟩
    (fun _ _ => ⟨5, 0, "", ""⟩) (.inl "sleep 5") none 1 (by decide)

/-- C6: a second `_ensure_sandbox` call on the state produced by a
successful first call returns the very same handle and leaves the state
untouched, whatever the database view of the second call is — the cached
in-memory handle short-circuits everything, so the sandbox id is stable
within a session. -/
theorem c6_ensure_sandbox_idempotent (cfg : WorkspaceConfig)
    (PROVIDER project_id : String) (db db2 : DbView) (st st2 : ToolState)
    (sb : LocalProcessSandbox)
    (h : ensure_sandbox cfg PROVIDER project_id db st = .ok (sb, st2)) :
    ensure_sandbox cfg PROVIDER project_id db2 st2 = .ok (sb, st2) := by
  have hsb : st2._sandbox = some sb := by
    simp only [ensure_sandbox] at h
    rcases hst : st._sandbox with _ | sb0 <;> rw [hst] at h
    · rcases hdb : db with _ | ⟨_ | rec⟩ <;> rw [hdb] at h
      · simp only [Except.ok.injEq, Prod.mk.injEq] at h
        rw [← h.2, ← h.1]
      · simp at h
      · simp only [Except.ok.injEq, Prod.mk.injEq] at h
        rw [← h.2, ← h.1]
    · simp only [Except.ok.injEq, Prod.mk.injEq] at h
      rw [← h.2, hst, h.1]
  simp only [ensure_sandbox, hsb]

/-- C6 (witness): a first call without a DB client caches the handle; a
second call — here even with a DB view whose project row is missing, which
would error on a fresh state — returns the cached handle unchanged. -/
theorem c6_ensure_sandbox_idempotent_witness :
    ensure_sandbox localCfg "local_process" "p1" (some none)
      ⟨some ⟨"p1", "/workspace", "RUNNING"⟩, some "p1", none⟩
      = .ok (⟨"p1", "/workspace", "RUNNING"⟩,
             ⟨some ⟨"p1", "/workspace", "RUNNING"⟩, some "p1", none⟩) :=
  c6_ensure_sandbox_idempotent localCfg "local_process" "p1" none (some none)
    ⟨none, none, none⟩ _ _ rfl

/-- C7: when a non-empty requirements list is supplied and the pip install
exits with a non-zero code, `run_python` returns the installer's
`{code, stdout, stderr}` (without `script`/`workdir` keys) and neither
writes nor executes the user script. -/
theorem c7_run_python_install_failure_shortcircuits (sb : LocalProcessSandbox)
    (venvHasCfg : Bool) (env : String → String → ProcBehavior)
    (scriptProc : ProcBehavior) (scriptName code project_id : String)
    (reqs : List String) (workdir : Option String) (timeout : Nat)
    (python_bin : Option String)
    (hreqs : reqs ≠ [])
    (hfail : ((sb.exec env
        (.inl (installCmdStr (venvPython sb project_id python_bin) reqs))
        (some (runPyWorkdir sb project_id workdir)) timeout).1).code ≠ 0) :
    sb.run_python venvHasCfg env scriptProc scriptName code project_id
        (some reqs) workdir timeout python_bin
      = (⟨((sb.exec env
            (.inl (installCmdStr (venvPython sb project_id python_bin) reqs))
            (some (runPyWorkdir sb project_id workdir)) timeout).1).code,
          ((sb.exec env
            (.inl (installCmdStr (venvPython sb project_id python_bin) reqs))
            (some (runPyWorkdir sb project_id workdir)) timeout).1).stdout,
          ((sb.exec env
            (.inl (installCmdStr (venvPython sb project_id python_bin) reqs))
            (some (runPyWorkdir sb project_id workdir)) timeout).1).stderr,
          none, none⟩,
         ⟨!venvHasCfg, false, false, none⟩) := by
  simp [LocalProcessSandbox.run_python, hreqs, hfail]

/-- C7 (witness): a failing installer (exit code 1) short-circuits
`run_python`; the script is not written and not executed. -/
theorem c7_run_python_install_failure_witness :
    LocalProcessSandbox.run_python ⟨"p1", "/workspace", "RUNNING"⟩ true
      (fun _ _ => ⟨0, 1, "", "pip failed"⟩) ⟨0, 0, "2\n", ""⟩ "tmp123.py"
      "print(1+1)" "p1" (some ["nosuchpkg==9.9"]) none 900 none
      = (⟨1, "", "pip failed", none, none⟩, ⟨false, false, false, none⟩) :=
  c7_run_python_install_failure_shortcircuits ⟨"p1", "/workspace", "RUNNING"⟩ true
    (fun _ _ => ⟨0, 1, "", "pip failed"⟩) ⟨0, 0, "2\n", ""⟩ "tmp123.py"
    "print(1+1)" "p1" ["nosuchpkg==9.9"] none 900 none
    (by decide) (by decide)

/-- C5: a segment immediately followed by an identical segment is collapsed
to one occurrence.  The deduplication loop rewrites each adjacent duplicate
pair to a single occurrence (first conjunct); `_fix_path_duplications`
outputs exactly the deduplicated segment list of its input (second
conjunct); and the spec's example holds through the full normalization
(third conjunct): `data/data/file.txt` normalizes to `data/file.txt`. -/
theorem c5_consecutive_duplicate_segments_collapse :
    (∀ (s : List Char) (t : List (List Char)),
      dedupSegs (s :: s :: t) = s :: dedupSegs t)
  ∧ (∀ p : String,
      nonEmptySegs (fix_path_duplications p) = dedupSegs (nonEmptySegs p))
  ∧ normalize_path localCfg "data/data/file.txt" (some "p1") = "data/file.txt" := by
  refine ⟨fun s t => dedupSegs_cons_dup s t, fun p => nonEmptySegs_fix p, by decide⟩

/-- C8: uploading bytes and downloading the same path returns exactly the
uploaded bytes, and the upload creates every missing ancestor of the
file's parent directory (`mkdir(parents := True, exist_ok := True)`). -/
theorem c8_upload_download_roundtrip (fs : LocalFSState) (root path : String)
    (data : List Nat) :
    download_file (upload_file fs root data path) root path = some data
  ∧ ∀ pre ∈ (absSegs root path).dropLast.inits,
      pre ∈ (upload_file fs root data path).dirs := by
  constructor
  · simp [download_file, upload_file]
  · intro pre hpre
    simp only [upload_file]
    exact List.mem_append_left _ hpre

/-- C8 (witness): the round trip at a concrete nested path on an empty
filesystem; the intermediate directory `sub` is created automatically. -/
theorem c8_upload_download_roundtrip_witness :
    download_file (upload_file ⟨[], []⟩ "/workspace" [97, 98, 99] "sub/dir/f.txt")
      "/workspace" "sub/dir/f.txt" = some [97, 98, 99]
  ∧ ["workspace", "sub"] ∈
      (upload_file (⟨[], []⟩ : LocalFSState) "/workspace" [97, 98, 99]
        "sub/dir/f.txt").dirs :=
  ⟨(c8_upload_download_roundtrip ⟨[], []⟩ "/workspace" "sub/dir/f.txt" [97, 98, 99]).1,
   (c8_upload_download_roundtrip ⟨[], []⟩ "/workspace" "sub/dir/f.txt" [97, 98, 99]).2
     ["workspace", "sub"] (by decide)⟩

/-- C9: `destroy` sets the handle's state to `ARCHIVED`, returns success,
and changes nothing else: the id and workspace root are untouched, and the
function performs no filesystem operation at all (it does not even take
the filesystem as an argument in the model, because the source touches no
on-disk state), so workspace data is neither deleted nor modified. -/
theorem c9_destroy_archives_only (sb : LocalProcessSandbox) :
    (sb.destroy.1.state = "ARCHIVED")
  ∧ (sb.destroy.2 = true)
  ∧ (sb.destroy.1.id = sb.id)
  ∧ (sb.destroy.1.workspace_root = sb.workspace_root) :=
  ⟨rfl, rfl, rfl, rfl⟩

/-- C10: `list_files` on a base path that does not exist returns the empty
list rather than raising; on an existing directory it returns exactly the
entries one level below the base (the direct children), not a recursive
listing. -/
theorem c10_list_files_missing_empty_flat (fs : LocalFSState) (root base : String) :
    (fs.existsAt (absSegs root base) = false → list_files fs root base = some [])
  ∧ (absSegs root base ∈ fs.dirs →
      list_files fs root base
        = some ((fs.childrenOf (absSegs root base)).map (mkFileInfo fs root))
      ∧ ∀ p, p ∈ fs.childrenOf (absSegs root base) ↔
          ((p ∈ fs.dirs ∨ p ∈ fs.files.map Prod.fst)
            ∧ p.length = (absSegs root base).length + 1
            ∧ absSegs root base <+: p)) := by
  constructor
  · intro h
    simp [list_files, h]
  · intro hdir
    have hex : fs.existsAt (absSegs root base) = true := by
      simp [LocalFSState.existsAt, hdir]
    constructor
    · simp [list_files, hex, hdir]
    · intro p
      simp only [LocalFSState.childrenOf, List.mem_filter, List.mem_append,
        decide_eq_true_eq]

/-- C10 (witness): a missing base lists as empty; the direct-child
characterization instantiated at a concrete filesystem and entry. -/
theorem c10_list_files_witness :
    list_files ⟨[["workspace"], ["workspace", "d"]],
        [(["workspace", "d", "f.txt"], [1]), (["workspace", "d", "e", "g.txt"], [2])]⟩
      "/workspace" "nope" = some []
  ∧ (["workspace", "d", "f.txt"] ∈
      (LocalFSState.mk [["workspace"], ["workspace", "d"]]
        [(["workspace", "d", "f.txt"], [1]),
         (["workspace", "d", "e", "g.txt"], [2])]).childrenOf
        (absSegs "/workspace" "d")
    ↔ ((["workspace", "d", "f.txt"] ∈
          (LocalFSState.mk [["workspace"], ["workspace", "d"]]
            [(["workspace", "d", "f.txt"], [1]),
             (["workspace", "d", "e", "g.txt"], [2])]).dirs
        ∨ ["workspace", "d", "f.txt"] ∈
          (LocalFSState.mk [["workspace"], ["workspace", "d"]]
            [(["workspace", "d", "f.txt"], [1]),
             (["workspace", "d", "e", "g.txt"], [2])]).files.map Prod.fst)
      ∧ (["workspace", "d", "f.txt"] : List String).length
          = (absSegs "/workspace" "d").length + 1
      ∧ absSegs "/workspace" "d" <+: ["workspace", "d", "f.txt"])) :=
  ⟨(c10_list_files_missing_empty_flat
      ⟨[["workspace"], ["workspace", "d"]],
       [(["workspace", "d", "f.txt"], [1]), (["workspace", "d", "e", "g.txt"], [2])]⟩
      "/workspace" "nope").1 (by decide),
   ((c10_list_files_missing_empty_flat
      ⟨[["workspace"], ["workspace", "d"]],
       [(["workspace", "d", "f.txt"], [1]), (["workspace", "d", "e", "g.txt"], [2])]⟩
      "/workspace" "d").2 (by decide)).2 ["workspace", "d", "f.txt"]⟩
